import Mathlib

/-!
Shallow embedding of the `benchresttest` transaction pipeline
(`src/bench.js` and the browser variant `src/unnamed/part_001`):
normalization of raw records, paginated accumulation, adjacent
deduplication after a canonical sort, and per-ledger aggregation.

Modelling conventions:
* JavaScript `undefined` string fields are `Option String` with `none`.
* A JavaScript number that may be `NaN` is `Option Int` with `none` for
  `NaN`; `jsAdd` propagates `NaN` the way `+` does.
* A JavaScript `Date` is represented by `Option Int`: `none` is an
  Invalid Date (whose time value is `NaN`), `some v` a valid date with
  an order-preserving integer encoding of its time value.  The sources
  document that dates arrive in ISO-8601 calendar-date form, so the
  embedded `Date` constructor parses exactly that format.
* Fallible JavaScript control flow (callbacks invoked with an `Error`)
  becomes `Except String`, carrying the error message.
-/

/-- A raw record as it appears in a page of the REST response: four
optional textual fields (`tx.Date`, `tx.Ledger`, `tx.Amount`,
`tx.Company`); a missing property reads as `undefined`. -/
structure RawTransaction where
  Date : Option String
  Ledger : Option String
  Amount : Option String
  Company : Option String
deriving DecidableEq, Repr

/-- A normalized transaction, the image of `normalizeTransaction` in
`src/bench.js` lines 37-48: `date` is a JS `Date` (`none` = Invalid
Date), `amount` a JS number (`none` = `NaN`), `ledger` and `company`
are copied verbatim (possibly `undefined`). -/
structure Transaction where
  date : Option Int
  ledger : Option String
  amount : Option Int
  company : Option String
deriving DecidableEq, Repr

/-- Numeric value of a decimal digit character. -/
def digitVal (c : Char) : Nat := c.toNat - 48

/-- Value of a list of decimal digit characters, most significant first. -/
def digitsVal (ds : List Char) : Nat := ds.foldl (fun n c => 10 * n + digitVal c) 0

/-- Longest run of decimal digits at the front of the character list;
this is the portion of the string `parseInt` consumes. -/
def leadingDigits : List Char → List Char
  | [] => []
  | c :: cs => if c.isDigit then c :: leadingDigits cs else []

/-- Embedding of JavaScript `parseInt(s, 10)` on a defined string:
after skipping leading whitespace, an optional sign followed by the
leading run of decimal digits is converted; if that run is empty the
result is `NaN` (`none`).  Everything after the digit run — in
particular a decimal point and fractional digits — is ignored. -/
def parseIntCore (cs : List Char) : Option Int :=
  match cs with
  | [] => none
  | c :: rest =>
    if c = '-' then
      let ds := leadingDigits rest
      if ds.isEmpty then none else some (-(digitsVal ds : Int))
    else if c = '+' then
      let ds := leadingDigits rest
      if ds.isEmpty then none else some (digitsVal ds : Int)
    else
      let ds := leadingDigits (c :: rest)
      if ds.isEmpty then none else some (digitsVal ds : Int)

/-- JavaScript `parseInt(x, 10)` as used on `tx.Amount`: an
`undefined` amount stringifies to `"undefined"`, which has no leading
digits, hence `NaN`. -/
def parseIntJS (s : Option String) : Option Int :=
  match s with
  | none => none
  | some s => parseIntCore (s.data.dropWhile Char.isWhitespace)

/-- Embedding of `new Date(s)` on the ISO-8601 calendar-date strings
the source assumes (`YYYY-MM-DD`, see the comment block above
`normalizeTransaction`); any other shape yields an Invalid Date
(`none`).  A valid date is encoded as `y*10000 + m*100 + d`, an
order-preserving injective encoding of its time value. -/
def parseIsoDate : List Char → Option Int
  | [y1, y2, y3, y4, '-', m1, m2, '-', d1, d2] =>
    if y1.isDigit && y2.isDigit && y3.isDigit && y4.isDigit &&
       m1.isDigit && m2.isDigit && d1.isDigit && d2.isDigit then
      let m := digitsVal [m1, m2]
      let d := digitsVal [d1, d2]
      if 1 ≤ m && m ≤ 12 && 1 ≤ d && d ≤ 31 then
        some ((digitsVal [y1, y2, y3, y4] * 10000 + m * 100 + d : Nat) : Int)
      else none
    else none
  | _ => none

/-- JavaScript `new Date(x)` on `tx.Date`: `new Date(undefined)` is an
Invalid Date. -/
def parseDateJS (s : Option String) : Option Int :=
  match s with
  | none => none
  | some s => parseIsoDate s.data

/-- Embedding of `normalizeTransaction` (`src/bench.js` lines 37-48):
`date: new Date(tx.Date)`, `ledger: tx.Ledger`,
`amount: parseInt(tx.Amount, 10)`, `company: tx.Company`.  The function
body performs no validation and cannot throw on a record argument, so
it is total: unparseable fields flow through as Invalid Date / `NaN`. -/
def normalizeTransaction (tx : RawTransaction) : Transaction :=
  { date := parseDateJS tx.Date
    ledger := tx.Ledger
    amount := parseIntJS tx.Amount
    company := tx.Company }

/-!  ### Deduplicator  -/

/-- Loose JavaScript equality `a == b` on numbers that may be `NaN`
(time values of dates, amounts): `NaN` compares unequal to everything,
itself included. -/
def nanEq : Option Int → Option Int → Bool
  | some a, some b => a == b
  | _, _ => false

/-- Embedding of the `deep-equal` test `equal(tx, current)` on two
transaction objects: `Date`s compare by time value (so two Invalid
Dates are unequal), numbers by `==` (so `NaN` is unequal to `NaN`),
strings and `undefined` by `==` on equally-typed values. -/
def jsEqTx (a b : Transaction) : Bool :=
  nanEq a.date b.date && a.ledger == b.ledger &&
    nanEq a.amount b.amount && a.company == b.company

/-- The guard `equal(tx, current)` of `deduplicateTransactions`, where
`current` starts out `undefined` (`none`): an object never
`deep-equal`s `undefined`. -/
def eqCurrent (tx : Transaction) : Option Transaction → Bool
  | none => false
  | some c => jsEqTx tx c

/-- The `forEach` loop of `deduplicateTransactions` (`src/bench.js`
lines 152-162), with the mutable `current` made an explicit argument:
a record equal to `current` is dropped, otherwise it is pushed and
becomes the new `current`. -/
def dedupFrom : Option Transaction → List Transaction → List Transaction
  | _, [] => []
  | cur, tx :: rest =>
    if eqCurrent tx cur then dedupFrom cur rest
    else tx :: dedupFrom (some tx) rest

/-- Embedding of `deduplicateTransactions`: the loop starts with
`current` undefined and an empty output array. -/
def deduplicateTransactions (transactions : List Transaction) : List Transaction :=
  dedupFrom none transactions

/-- Whatever the running `current`, the loop only ever pushes elements
of its input, in input order: the output is a sublist. -/
theorem dedupFrom_sublist (l : List Transaction) :
    ∀ cur, (dedupFrom cur l).Sublist l := by
  induction l with
  | nil => intro cur; simp [dedupFrom]
  | cons x xs ih =>
    intro cur
    by_cases h : eqCurrent x cur
    · simpa [dedupFrom, h] using (ih cur).trans (List.sublist_cons_self x xs)
    · simpa [dedupFrom, h] using (ih (some x)).cons₂ x

/-- Re-running the loop on its own output from the same starting
`current` changes nothing: every output element was pushed, hence
compared unequal to the `current` in force at its position, and the
second run reproduces exactly those comparisons. -/
theorem dedupFrom_idem (l : List Transaction) :
    ∀ cur, dedupFrom cur (dedupFrom cur l) = dedupFrom cur l := by
  induction l with
  | nil => intro cur; simp [dedupFrom]
  | cons x xs ih =>
    intro cur
    by_cases h : eqCurrent x cur
    · simp [dedupFrom, h, ih cur]
    · simp [dedupFrom, h, ih (some x)]

/-!  ### Canonical ordering

`getLedgerTotals` sorts the working set with
`sortBy(transactions, ['date', 'ledger', 'company', 'amount'])` before
deduplicating.  We embed the sort as an insertion sort by the
lexicographic key tuple; an `undefined` (or invalid) field sorts as
`⊥`.  The claims about the sorted pipeline depend only on the key
being a total order that puts records with equal keys next to each
other, not on where JavaScript places its ties. -/

/-- Lift an optional field into `WithBot` for ordering purposes. -/
def toWB {α : Type} (o : Option α) : WithBot α :=
  match o with
  | none => ⊥
  | some a => (a : WithBot α)

/-- The canonical sort key tuple (date, ledger, company, amount). -/
def txKey (t : Transaction) :
    Lex (WithBot Int × Lex (WithBot String × Lex (WithBot String × WithBot Int))) :=
  toLex (toWB t.date, toLex (toWB t.ledger, toLex (toWB t.company, toWB t.amount)))

/-- Comparison underlying the canonical sort. -/
def txLE (a b : Transaction) : Prop := txKey a ≤ txKey b

instance : DecidableRel txLE :=
  fun a b => inferInstanceAs (Decidable (txKey a ≤ txKey b))

theorem toWB_inj {α : Type} {a b : Option α} (h : toWB a = toWB b) : a = b := by
  cases a with
  | none =>
    cases b with
    | none => rfl
    | some vb => simp [toWB] at h
  | some va =>
    cases b with
    | none => simp [toWB] at h
    | some vb =>
      have : (va : WithBot α) = (vb : WithBot α) := by simpa [toWB] using h
      exact congrArg some (WithBot.coe_inj.mp this)

/-- The key tuple lists all four fields, so it determines the record. -/
theorem txKey_inj {a b : Transaction} (h : txKey a = txKey b) : a = b := by
  obtain ⟨da, la, aa, ca⟩ := a
  obtain ⟨db, lb, ab, cb⟩ := b
  simp only [txKey] at h
  have h1 := toLex.injective h
  rw [Prod.ext_iff] at h1
  obtain ⟨h2, h3⟩ := h1
  have h4 := toLex.injective h3
  rw [Prod.ext_iff] at h4
  obtain ⟨h5, h6⟩ := h4
  have h7 := toLex.injective h6
  rw [Prod.ext_iff] at h7
  obtain ⟨h8, h9⟩ := h7
  simp only [Transaction.mk.injEq]
  exact ⟨toWB_inj h2, toWB_inj h5, toWB_inj h9, toWB_inj h8⟩

instance : IsTotal Transaction txLE := ⟨fun a b => le_total (txKey a) (txKey b)⟩

instance : IsTrans Transaction txLE := ⟨fun _ _ _ h1 h2 => le_trans h1 h2⟩

instance : IsAntisymm Transaction txLE := ⟨fun _ _ h1 h2 => txKey_inj (le_antisymm h1 h2)⟩

/-- Embedding of `sortBy(transactions, ['date','ledger','company','amount'])`. -/
def sortTransactions (transactions : List Transaction) : List Transaction :=
  List.insertionSort txLE transactions

/-- A transaction satisfying the data-model invariant: its date is not
the Invalid Date and its amount is not `NaN` (the spec's "a normalized
record always has a `date` and `amount`"). -/
def validTx (t : Transaction) : Bool := t.date.isSome && t.amount.isSome

/-- On records satisfying the data-model invariant, the `deep-equal`
test coincides with structural equality of the four fields. -/
theorem jsEqTx_iff {a b : Transaction} (ha : validTx a = true) (hb : validTx b = true) :
    jsEqTx a b = true ↔ a = b := by
  obtain ⟨da, la, aa, ca⟩ := a
  obtain ⟨db, lb, ab, cb⟩ := b
  simp only [validTx, Bool.and_eq_true, Option.isSome_iff_exists] at ha hb
  obtain ⟨⟨d1, hd1⟩, a1, ha1⟩ := ha
  obtain ⟨⟨d2, hd2⟩, a2, ha2⟩ := hb
  subst hd1 ha1 hd2 ha2
  simp [jsEqTx, nanEq, Transaction.mk.injEq, and_assoc]

/-- Over a sorted run of valid records all `≥ x`, the loop with
`current = x` keeps exactly one copy of each record other than `x`
itself (whose leading copies it absorbs). -/
theorem dedupFrom_mem_some (l : List Transaction) :
    ∀ x, l.Sorted txLE → (∀ t ∈ l, validTx t = true) → validTx x = true →
      (∀ b ∈ l, txLE x b) →
      ∀ a, a ∈ dedupFrom (some x) l ↔ (a ∈ l ∧ a ≠ x) := by
  induction l with
  | nil => intro x _ _ _ _ a; simp [dedupFrom]
  | cons y ys ih =>
    intro x hs hv hx hle a
    have hy : validTx y = true := hv y (List.mem_cons_self y ys)
    have hys : ∀ t ∈ ys, validTx t = true := fun t ht => hv t (List.mem_cons_of_mem y ht)
    rw [List.sorted_cons] at hs
    obtain ⟨hyb, hsys⟩ := hs
    have hxy : txLE x y := hle y (List.mem_cons_self y ys)
    have hxs : ∀ b ∈ ys, txLE x b := fun b hb => hle b (List.mem_cons_of_mem y hb)
    by_cases hcase : y = x
    · subst hcase
      have heq : eqCurrent y (some y) = true := by
        simp only [eqCurrent]; exact (jsEqTx_iff hy hy).mpr rfl
      rw [show dedupFrom (some y) (y :: ys) = dedupFrom (some y) ys by
        simp [dedupFrom, heq]]
      rw [ih y hsys hys hy hyb a]
      simp only [List.mem_cons]
      constructor
      · exact fun ⟨h1, h2⟩ => ⟨Or.inr h1, h2⟩
      · rintro ⟨h1 | h1, h2⟩
        · exact absurd h1 h2
        · exact ⟨h1, h2⟩
    · have hne : jsEqTx y x ≠ true := fun h => hcase ((jsEqTx_iff hy hx).mp h)
      have heq : eqCurrent y (some x) = false := by
        simp only [eqCurrent]; exact Bool.eq_false_iff.mpr hne
      rw [show dedupFrom (some x) (y :: ys) = y :: dedupFrom (some y) ys by
        simp [dedupFrom, heq]]
      have hih := ih y hsys hys hy hyb a
      have haxs : a ∈ ys → a ≠ x := fun hay hax =>
        hcase (antisymm (hax ▸ hyb a hay) hxy)
      have hyx : a = y → a ≠ x := fun hay hax => hcase (hay.symm.trans hax)
      simp only [List.mem_cons, hih]
      constructor
      · rintro (rfl | ⟨h1, h2⟩)
        · exact ⟨Or.inl rfl, hyx rfl⟩
        · exact ⟨Or.inr h1, haxs h1⟩
      · rintro ⟨h1 | h1, h2⟩
        · exact Or.inl h1
        · by_cases hay : a = y
          · exact Or.inl hay
          · exact Or.inr ⟨h1, hay⟩

/-- Over a sorted run of valid records all `≥ x`, the loop output has
no duplicates. -/
theorem dedupFrom_nodup_some (l : List Transaction) :
    ∀ x, l.Sorted txLE → (∀ t ∈ l, validTx t = true) → validTx x = true →
      (∀ b ∈ l, txLE x b) → (dedupFrom (some x) l).Nodup := by
  induction l with
  | nil => intro x _ _ _ _; simp [dedupFrom]
  | cons y ys ih =>
    intro x hs hv hx hle
    have hy : validTx y = true := hv y (List.mem_cons_self y ys)
    have hys : ∀ t ∈ ys, validTx t = true := fun t ht => hv t (List.mem_cons_of_mem y ht)
    rw [List.sorted_cons] at hs
    obtain ⟨hyb, hsys⟩ := hs
    by_cases hcase : y = x
    · subst hcase
      have heq : eqCurrent y (some y) = true := by
        simp only [eqCurrent]; exact (jsEqTx_iff hy hy).mpr rfl
      rw [show dedupFrom (some y) (y :: ys) = dedupFrom (some y) ys by
        simp [dedupFrom, heq]]
      exact ih y hsys hys hy hyb
    · have hne : jsEqTx y x ≠ true := fun h => hcase ((jsEqTx_iff hy hx).mp h)
      have heq : eqCurrent y (some x) = false := by
        simp only [eqCurrent]; exact Bool.eq_false_iff.mpr hne
      rw [show dedupFrom (some x) (y :: ys) = y :: dedupFrom (some y) ys by
        simp [dedupFrom, heq]]
      refine List.nodup_cons.mpr ⟨?_, ih y hsys hys hy hyb⟩
      intro hmem
      exact ((dedupFrom_mem_some ys y hsys hys hy hyb y).mp hmem).2 rfl

/-- On a sorted list of valid records, deduplication keeps exactly the
set of records of the input. -/
theorem dedup_sorted_mem (l : List Transaction) (hs : l.Sorted txLE)
    (hv : ∀ t ∈ l, validTx t = true) :
    ∀ a, a ∈ deduplicateTransactions l ↔ a ∈ l := by
  cases l with
  | nil => intro a; simp [deduplicateTransactions, dedupFrom]
  | cons y ys =>
    intro a
    have hy : validTx y = true := hv y (List.mem_cons_self y ys)
    have hys : ∀ t ∈ ys, validTx t = true := fun t ht => hv t (List.mem_cons_of_mem y ht)
    rw [List.sorted_cons] at hs
    obtain ⟨hyb, hsys⟩ := hs
    rw [show deduplicateTransactions (y :: ys) = y :: dedupFrom (some y) ys by
      simp [deduplicateTransactions, dedupFrom, eqCurrent]]
    simp only [List.mem_cons, dedupFrom_mem_some ys y hsys hys hy hyb a]
    constructor
    · rintro (rfl | ⟨h1, _⟩)
      · exact Or.inl rfl
      · exact Or.inr h1
    · rintro (rfl | h1)
      · exact Or.inl rfl
      · by_cases hay : a = y
        · exact Or.inl hay
        · exact Or.inr ⟨h1, hay⟩

/-- On a sorted list of valid records, deduplication leaves no
duplicates at all. -/
theorem dedup_sorted_nodup (l : List Transaction) (hs : l.Sorted txLE)
    (hv : ∀ t ∈ l, validTx t = true) :
    (deduplicateTransactions l).Nodup := by
  cases l with
  | nil => simp [deduplicateTransactions, dedupFrom]
  | cons y ys =>
    have hy : validTx y = true := hv y (List.mem_cons_self y ys)
    have hys : ∀ t ∈ ys, validTx t = true := fun t ht => hv t (List.mem_cons_of_mem y ht)
    rw [List.sorted_cons] at hs
    obtain ⟨hyb, hsys⟩ := hs
    rw [show deduplicateTransactions (y :: ys) = y :: dedupFrom (some y) ys by
      simp [deduplicateTransactions, dedupFrom, eqCurrent]]
    refine List.nodup_cons.mpr ⟨?_, dedupFrom_nodup_some ys y hsys hys hy hyb⟩
    intro hmem
    exact ((dedupFrom_mem_some ys y hsys hys hy hyb y).mp hmem).2 rfl

/-- C9: deduplication is idempotent — applying `deduplicateTransactions`
to its own output (for every list of records, sorted or not) yields
that output unchanged. -/
theorem deduplicateTransactions_idem (l : List Transaction) :
    deduplicateTransactions (deduplicateTransactions l) = deduplicateTransactions l :=
  dedupFrom_idem l none

/-- C10: for every input list, the output of `deduplicateTransactions`
is a sublist (subsequence) of its input — every kept record appears in
the input with relative order preserved — its length never exceeds the
input length, and on a non-empty input the first element is always
kept. -/
theorem deduplicateTransactions_sublist (l : List Transaction) :
    (deduplicateTransactions l).Sublist l ∧
      (deduplicateTransactions l).length ≤ l.length ∧
      ∀ x xs, l = x :: xs → (deduplicateTransactions l).head? = some x := by
  refine ⟨dedupFrom_sublist l none, (dedupFrom_sublist l none).length_le, ?_⟩
  rintro x xs rfl
  simp [deduplicateTransactions, dedupFrom, eqCurrent]

/-- Witness for C10 at a concrete two-element input with a duplicate. -/
theorem deduplicateTransactions_sublist_witness :
    (deduplicateTransactions
        [⟨some 20131213, some "Rent", some (-100), some "ACME"⟩,
         ⟨some 20131213, some "Rent", some (-100), some "ACME"⟩]).Sublist
      [⟨some 20131213, some "Rent", some (-100), some "ACME"⟩,
       ⟨some 20131213, some "Rent", some (-100), some "ACME"⟩] ∧
    (deduplicateTransactions
        [⟨some 20131213, some "Rent", some (-100), some "ACME"⟩,
         ⟨some 20131213, some "Rent", some (-100), some "ACME"⟩]).length ≤ 2 ∧
    (deduplicateTransactions
        [⟨some 20131213, some "Rent", some (-100), some "ACME"⟩,
         ⟨some 20131213, some "Rent", some (-100), some "ACME"⟩]).head? =
      some ⟨some 20131213, some "Rent", some (-100), some "ACME"⟩ :=
  ⟨(deduplicateTransactions_sublist _).1,
   (deduplicateTransactions_sublist _).2.1,
   (deduplicateTransactions_sublist
      [⟨some 20131213, some "Rent", some (-100), some "ACME"⟩,
       ⟨some 20131213, some "Rent", some (-100), some "ACME"⟩]).2.2 _ _ rfl⟩

/-- C2: after the working set is sorted by the canonical key tuple
(date, category, counterparty, amount), deduplication collapses any
group of records identical in all four fields to a single record
(counted exactly once), regardless of original fetch order — the
result is invariant under permutation of the input — while any two
records differing in at least one field are both retained (each is
also counted exactly once).  The records are assumed to satisfy the
data-model invariant (`validTx`): a valid date and a non-`NaN`
amount. -/
theorem sortAndDedup_collapses_duplicates (l : List Transaction)
    (hv : ∀ t ∈ l, validTx t = true) (a : Transaction) (ha : a ∈ l) :
    (deduplicateTransactions (sortTransactions l)).count a = 1 ∧
      ∀ l' : List Transaction, l.Perm l' →
        deduplicateTransactions (sortTransactions l) =
          deduplicateTransactions (sortTransactions l') := by
  have hs : (sortTransactions l).Sorted txLE := List.sorted_insertionSort txLE l
  have hp : (sortTransactions l).Perm l := List.perm_insertionSort txLE l
  have hv' : ∀ t ∈ sortTransactions l, validTx t = true :=
    fun t ht => hv t (hp.mem_iff.mp ht)
  refine ⟨?_, ?_⟩
  · exact List.count_eq_one_of_mem
      (dedup_sorted_nodup _ hs hv')
      ((dedup_sorted_mem _ hs hv' a).mpr (hp.mem_iff.mpr ha))
  · intro l' hperm
    have heq : sortTransactions l = sortTransactions l' :=
      List.eq_of_perm_of_sorted
        (hp.trans (hperm.trans (List.perm_insertionSort txLE l').symm))
        hs (List.sorted_insertionSort txLE l')
    rw [heq]

/-- Witness for C2: a three-record set holding an exact duplicate pair
plus a record differing from them only in counterparty; the duplicated
record is counted once after sort-and-dedup. -/
theorem sortAndDedup_collapses_duplicates_witness :
    (∀ t ∈ [(⟨some 20131213, some "Rent", some (-100), some "ACME"⟩ : Transaction),
            ⟨some 20131213, some "Rent", some (-100), some "OTHER"⟩,
            ⟨some 20131213, some "Rent", some (-100), some "ACME"⟩],
        validTx t = true) ∧
      (deduplicateTransactions (sortTransactions
          [⟨some 20131213, some "Rent", some (-100), some "ACME"⟩,
           ⟨some 20131213, some "Rent", some (-100), some "OTHER"⟩,
           ⟨some 20131213, some "Rent", some (-100), some "ACME"⟩])).count
        ⟨some 20131213, some "Rent", some (-100), some "ACME"⟩ = 1 :=
  ⟨by decide,
   (sortAndDedup_collapses_duplicates
      [⟨some 20131213, some "Rent", some (-100), some "ACME"⟩,
       ⟨some 20131213, some "Rent", some (-100), some "OTHER"⟩,
       ⟨some 20131213, some "Rent", some (-100), some "ACME"⟩]
      (by decide)
      ⟨some 20131213, some "Rent", some (-100), some "ACME"⟩
      (by decide)).1⟩

/-!  ### Aggregator

`calculateLedgerTotals` (`src/unnamed/part_001` lines 187-202) folds
the records into a JavaScript object `{'*': 0}`; each record first adds
its amount to the `'*'` entry, then to the entry named by its (blank-
or-missing-folded-to-`'Unknown'`) ledger, initialising that entry to 0
on first touch.  We model the object as a total function
`String → Option Int` whose untouched entries read 0 — the code never
reads an entry it has not initialised — and keep JavaScript `NaN`
propagation in the addition. -/

/-- JavaScript `+` on numbers that may be `NaN`. -/
def jsAdd : Option Int → Option Int → Option Int
  | some a, some b => some (a + b)
  | _, _ => none

/-- JavaScript `String.prototype.trim`: strip whitespace from both
ends. -/
def jsTrim (s : String) : String :=
  String.mk (((s.data.dropWhile Char.isWhitespace).reverse.dropWhile
      Char.isWhitespace).reverse)

/-- Embedding of the helper `isBlank` (`src/unnamed/part_001` lines
176-178): `undefined` or whitespace-only. -/
def isBlank : Option String → Bool
  | none => true
  | some s => jsTrim s == ""

/-- The bucket name a record is counted under: its ledger, with a
blank or missing ledger folded to `"Unknown"` (the reassignment
`ledger = 'Unknown'` inside the aggregation loop). -/
def effectiveLedger (tx : Transaction) : String :=
  if isBlank tx.ledger then "Unknown" else tx.ledger.getD "Unknown"

/-- One iteration of the aggregation loop: add the amount to the `'*'`
entry, then to the record's own bucket. -/
def ledgerStep (tot : String → Option Int) (tx : Transaction) : String → Option Int :=
  let tot2 : String → Option Int := fun k => if k = "*" then jsAdd (tot k) tx.amount else tot k
  let ledger := effectiveLedger tx
  fun k => if k = ledger then jsAdd (tot2 k) tx.amount else tot2 k

/-- Embedding of `calculateLedgerTotals`. -/
def calculateLedgerTotals (transactions : List Transaction) : String → Option Int :=
  transactions.foldl ledgerStep (fun _ => some 0)

/-- Total amount a single record contributes to entry `k`: its amount
if `k` is the grand-total key, plus its amount again if `k` is its own
bucket.  (The two coincide when a record's ledger is literally `"*"`.) -/
def bucketAmt (k : String) (tx : Transaction) : Int :=
  (if k = "*" then tx.amount.getD 0 else 0) +
    (if k = effectiveLedger tx then tx.amount.getD 0 else 0)

/-- Total contribution of a record list to entry `k`. -/
def contribution (k : String) (txs : List Transaction) : Int :=
  (txs.map (bucketAmt k)).sum

theorem ledgerStep_char (tot : String → Option Int) (tx : Transaction) (k : String)
    (ha : (tx.amount).isSome = true) :
    ledgerStep tot tx k = (tot k).map (· + bucketAmt k tx) := by
  obtain ⟨a, ha⟩ := Option.isSome_iff_exists.mp ha
  by_cases h1 : k = "*" <;> by_cases h2 : k = effectiveLedger tx <;>
    cases htot : tot k <;>
      simp_all [ledgerStep, bucketAmt, jsAdd, add_assoc]

theorem ledgerFold_char :
    ∀ (txs : List Transaction), (∀ t ∈ txs, (t.amount).isSome = true) →
      ∀ (tot : String → Option Int) (k : String),
        (txs.foldl ledgerStep tot) k = (tot k).map (· + contribution k txs) := by
  intro txs
  induction txs with
  | nil =>
    intro _ tot k
    cases htot : tot k <;> simp [contribution, htot]
  | cons tx txs ih =>
    intro hv tot k
    have h1 : (tx.amount).isSome = true := hv tx (List.mem_cons_self tx txs)
    have hs : ∀ t ∈ txs, (t.amount).isSome = true :=
      fun t ht => hv t (List.mem_cons_of_mem tx ht)
    rw [List.foldl_cons, ih hs (ledgerStep tot tx) k, ledgerStep_char tot tx k h1]
    cases htot : tot k <;>
      simp [contribution, htot, add_assoc]

theorem contribution_star (txs : List Transaction)
    (hstar : ∀ t ∈ txs, effectiveLedger t ≠ "*") :
    contribution "*" txs = (txs.map (fun tx => tx.amount.getD 0)).sum := by
  induction txs with
  | nil => simp [contribution]
  | cons tx txs ih =>
    have h1 : effectiveLedger tx ≠ "*" := hstar tx (List.mem_cons_self tx txs)
    have hs : ∀ t ∈ txs, effectiveLedger t ≠ "*" :=
      fun t ht => hstar t (List.mem_cons_of_mem tx ht)
    simp [contribution, bucketAmt, Ne.symm h1] at ih ⊢
    exact ih hs

theorem contribution_bucket (txs : List Transaction) (c : String) (hc : c ≠ "*") :
    contribution c txs =
      ((txs.filter (fun tx => effectiveLedger tx = c)).map
          (fun tx => tx.amount.getD 0)).sum := by
  induction txs with
  | nil => simp [contribution]
  | cons tx txs ih =>
    by_cases h : effectiveLedger tx = c
    · simp [contribution, bucketAmt, hc, h, List.filter_cons] at ih ⊢
      exact ih
    · simp [contribution, bucketAmt, hc, h, Ne.symm h, List.filter_cons] at ih ⊢
      exact ih

/-- C1 counterexample: on the (deduplicated, valid) one-record
collection whose record's category is literally the reserved key `"*"`,
the grand-total entry is 2 while the sum of the records' amounts is 1:
the record's bucket is the grand-total entry itself, so its amount is
added there twice. -/
theorem calculateLedgerTotals_star_collision :
    calculateLedgerTotals [⟨some 20131213, some "*", some 1, some "C"⟩] "*" = some 2 ∧
      (([⟨some 20131213, some "*", some 1, some "C"⟩] : List Transaction).map
          (fun tx => tx.amount.getD 0)).sum = 1 := by
  constructor
  · decide
  · decide

/-- C1 (amended): for every collection of records with well-defined
amounts none of whose effective categories is the reserved key `"*"`,
the aggregator's grand-total entry equals exactly the sum of all the
records' amounts, and every other entry equals the sum of the amounts
of the records whose bucket it names — a record with blank or missing
category being counted under the `"Unknown"` bucket while still
contributing to the grand total. -/
theorem calculateLedgerTotals_char (txs : List Transaction)
    (hv : ∀ t ∈ txs, (t.amount).isSome = true)
    (hstar : ∀ t ∈ txs, effectiveLedger t ≠ "*") :
    calculateLedgerTotals txs "*" =
        some ((txs.map (fun tx => tx.amount.getD 0)).sum) ∧
      ∀ c : String, c ≠ "*" →
        calculateLedgerTotals txs c =
          some (((txs.filter (fun tx => effectiveLedger tx = c)).map
              (fun tx => tx.amount.getD 0)).sum) := by
  constructor
  · rw [show calculateLedgerTotals txs "*" = ((fun _ => (some 0 : Option Int)) "*").map
        (· + contribution "*" txs) from ledgerFold_char txs hv _ "*"]
    simp [contribution_star txs hstar]
  · intro c hc
    rw [show calculateLedgerTotals txs c = ((fun _ => (some 0 : Option Int)) c).map
        (· + contribution c txs) from ledgerFold_char txs hv _ c]
    simp [contribution_bucket txs c hc]

/-- Witness for C1 (amended) on a two-record collection, one record
with a blank category: the grand total is the exact sum and the blank
record lands in the `"Unknown"` bucket. -/
theorem calculateLedgerTotals_char_witness :
    calculateLedgerTotals
        [⟨some 20131213, some "Rent", some (-100), some "ACME"⟩,
         ⟨some 20140102, none, some 7, some "PAYER"⟩] "*" = some (-93) ∧
      calculateLedgerTotals
        [⟨some 20131213, some "Rent", some (-100), some "ACME"⟩,
         ⟨some 20140102, none, some 7, some "PAYER"⟩] "Unknown" = some 7 := by
  constructor
  · rw [(calculateLedgerTotals_char
        [⟨some 20131213, some "Rent", some (-100), some "ACME"⟩,
         ⟨some 20140102, none, some 7, some "PAYER"⟩]
        (by decide) (by decide)).1]
    decide
  · rw [(calculateLedgerTotals_char
        [⟨some 20131213, some "Rent", some (-100), some "ACME"⟩,
         ⟨some 20140102, none, some 7, some "PAYER"⟩]
        (by decide) (by decide)).2 "Unknown" (by decide)]
    decide

/-!  ### Page Fetcher

`fetchTransactionsPage` (`src/bench.js` lines 55-74) validates the
duck-typed response: `'page' in results`, `results.page !== pageNumber`,
`'totalCount' in results`, `'transactions' in results`, and
`typeof results.transactions !== 'object'`, each violation invoking the
callback with an `Error` carrying a distinguishing message.  Note that
in JavaScript `typeof null === 'object'`, so a `null` transactions
field passes the last check. -/

/-- The value of the `transactions` property of a response, as seen by
the `typeof` check: absent, a value whose `typeof` is not `'object'`
(string, number, boolean or `undefined`), `null` (whose `typeof` *is*
`'object'`), or an array of raw records. -/
inductive TxField where
  | missing
  | scalar
  | null
  | list (txs : List RawTransaction)
deriving DecidableEq, Repr

/-- A raw page response: `page` and `totalCount` properties that may be
absent (`none`), and the `transactions` property.  A present `page`
value that is not the requested number is modelled by its (un)equal
integer value, which the `!==` check treats the same way. -/
structure RawResults where
  page : Option Int
  totalCount : Option Int
  transactions : TxField
deriving DecidableEq, Repr

/-- What survives validation as the `transactions` field: `null` or an
array — both have `typeof === 'object'`. -/
inductive TxColl where
  | null
  | list (txs : List RawTransaction)
deriving DecidableEq, Repr

/-- A response that passed validation, as consumed by the accumulation
loop: its `totalCount` and its `transactions`. -/
structure ValidResults where
  totalCount : Int
  transactions : TxColl
deriving DecidableEq, Repr

/-- One remote fetch either fails at the transport (the `.on('error')`
path) or yields a structured response; the transport is an oracle from
page number to outcome. -/
inductive FetchOutcome where
  | transportError (msg : String)
  | response (r : RawResults)

/-- Embedding of `fetchTransactionsPage`: the validation chain in
source order, each failure carrying the source's message. -/
def fetchTransactionsPage (oracle : Nat → FetchOutcome) (pageNumber : Nat) :
    Except String ValidResults :=
  match oracle pageNumber with
  | .transportError msg => .error msg
  | .response r =>
    match r.page with
    | none => .error "expected page number in results"
    | some p =>
      if p ≠ (pageNumber : Int) then .error "expected page number not in results"
      else
        match r.totalCount with
        | none => .error "expected total count in results"
        | some tc =>
          match r.transactions with
          | .missing => .error "expected transactions in results"
          | .scalar => .error "expected transactions to be an object"
          | .null => .ok ⟨tc, .null⟩
          | .list txs => .ok ⟨tc, .list txs⟩

/-- Whether a `transactions` field is an actual collection of records. -/
def isCollection : TxField → Bool
  | .list _ => true
  | _ => false

/-- Whether a `transactions` field has JavaScript `typeof 'object'` —
what the source's last validation check actually tests. -/
def isObjectType : TxField → Bool
  | .null => true
  | .list _ => true
  | _ => false

/-!  ### Accumulator

`getTransactions` (`src/bench.js` lines 81-142) drives an asynchronous
do-while loop: state `expectedTotalCount` (initially 0), `transactions`
(initially empty), `pageNumber` (initially 1).  Each iteration fetches
and validates a page, overwrites `expectedTotalCount`, appends the
normalized records and increments the page counter; the loop continues
while `transactions.length < expectedTotalCount`.

The iteration body has two distinct failure shapes.  A fetch error
takes the `if (err) { next(err); }` branch, which fires the iteration
callback exactly once.  A throw inside the `try` block (only reachable
here when a validated-but-`null` transactions field makes
`results.transactions.forEach` throw a `TypeError`) is caught and
passed to `next(e)` — but the `next(null)` on line 120 sits *after*
the `catch`, outside any `else`, so the iteration callback then fires
a second time with no error.  In `async` 1.x `doWhilst` the first
invocation forwards the error to the final callback and the second
invocation consults the test and continues the loop (or completes it
successfully), so the caller's callback can observe a success after
the error; `async` 2+ would instead throw "Callback was already
called" out of the transport's response handler.  We embed the 1.x
semantics, recording the full sequence of final-callback invocations
the caller observes.  The loop runs on explicit fuel; exhausted fuel
(`none`) stands for non-termination. -/

/-- The loop state of `getTransactions`. -/
structure AccState where
  expectedTotalCount : Int
  transactions : List Transaction
  pageNumber : Nat
deriving DecidableEq, Repr

/-- Embedding of `hasMorePages`: continue while the working-set size is
below the most recently reported total count. -/
def hasMorePages (s : AccState) : Bool :=
  (s.transactions.length : Int) < s.expectedTotalCount

/-- What one call to `accumulateTransactions` does to its callback:
fire it once with a fetch error, fire it once cleanly, or — on a throw
caught inside the `try` block — fire it first with the error and then
again with no error (the unconditional `next(null)` after the
`catch`). -/
inductive StepResult where
  | fetchError (e : String)
  | caughtThrow (e : String) (s : AccState)
  | ok (s : AccState)
deriving DecidableEq, Repr

/-- Embedding of one call to `accumulateTransactions`: fetch and
validate the current page; on success overwrite the expected total,
normalize and append the page's records, and advance the page counter.
A `null` transactions field survives validation but makes
`results.transactions.forEach` throw a `TypeError`; at that point
`expectedTotalCount` has already been overwritten, nothing has been
appended, and `pageNumber++` was not reached — that partially mutated
state is what the loop continues from after the stray `next(null)`. -/
def accumulateStep (oracle : Nat → FetchOutcome) (s : AccState) : StepResult :=
  match fetchTransactionsPage oracle s.pageNumber with
  | .error e => .fetchError e
  | .ok results =>
    match results.transactions with
    | .null =>
      .caughtThrow "TypeError: results.transactions.forEach is not a function"
        { expectedTotalCount := results.totalCount
          transactions := s.transactions
          pageNumber := s.pageNumber }
    | .list txs =>
      .ok { expectedTotalCount := results.totalCount
            transactions := s.transactions ++ txs.map normalizeTransaction
            pageNumber := s.pageNumber + 1 }

/-- One invocation of the caller's callback: a failure (`next(err)`)
or a success delivering the working set (`next(null, transactions)`). -/
inductive CallerEvent where
  | failure (e : String)
  | success (transactions : List Transaction)
deriving DecidableEq, Repr

/-- The `async` 1.x `doWhilst` loop on explicit fuel, counting how many
fetches were performed and recording every invocation of the final
callback in order.  A fetch error stops the loop with that single
failure.  A clean iteration consults `hasMorePages` and either
continues or completes with a single success delivering the working
set.  A caught throw first fires a failure and then — because of the
stray `next(null)` — the second callback invocation consults
`hasMorePages` exactly like a clean iteration: the loop either
continues (the failure is followed by whatever the rest of the run
delivers) or completes, delivering a success right after the
failure. -/
def accRun (oracle : Nat → FetchOutcome) : Nat → AccState → Option (Nat × List CallerEvent)
  | 0, _ => none
  | fuel + 1, s =>
    match accumulateStep oracle s with
    | .fetchError e => some (1, [.failure e])
    | .ok s' =>
      if hasMorePages s' then
        match accRun oracle fuel s' with
        | none => none
        | some (n, evs) => some (n + 1, evs)
      else some (1, [.success s'.transactions])
    | .caughtThrow e s' =>
      if hasMorePages s' then
        match accRun oracle fuel s' with
        | none => none
        | some (n, evs) => some (n + 1, .failure e :: evs)
      else some (1, [.failure e, .success s'.transactions])

/-- Embedding of `getTransactions`: run the do-while loop from the
initial state (expected total 0, empty working set, page 1). -/
def getTransactions (oracle : Nat → FetchOutcome) (fuel : Nat) :
    Option (Nat × List CallerEvent) :=
  accRun oracle fuel ⟨0, [], 1⟩

/-- A transport whose every response carries a `null` transactions
field alongside a correct page number and total count. -/
def oracleNullTransactions : Nat → FetchOutcome :=
  fun _ => .response ⟨some 1, some 7, .null⟩

/-- C6 counterexample: a response whose `transactions` field is `null`
— not a collection — nevertheless makes `fetchTransactionsPage`
return success, because `typeof null === 'object'`; the claim's
"success only if transactions is a collection" fails at this input. -/
theorem fetchTransactionsPage_accepts_null :
    fetchTransactionsPage oracleNullTransactions 1 = .ok ⟨7, .null⟩ ∧
      isCollection (RawResults.transactions ⟨some 1, some 7, .null⟩) = false :=
  ⟨rfl, rfl⟩

/-- C6 (amended): for every requested page and response, the fetcher
returns success iff the response has a page-number field equal to the
requested page, a total-count field, and a transactions field whose
JavaScript `typeof` is `'object'` — i.e. an array *or `null`*, `null`
being accepted although it is not a collection; each violation fails
with the error message identifying the violated invariant. -/
theorem fetchTransactionsPage_validates (oracle : Nat → FetchOutcome)
    (pageNumber : Nat) (r : RawResults) (h : oracle pageNumber = .response r) :
    ((∃ v, fetchTransactionsPage oracle pageNumber = .ok v) ↔
        (r.page = some (pageNumber : Int) ∧ (r.totalCount).isSome = true ∧
          isObjectType r.transactions = true)) ∧
      (r.page = none →
        fetchTransactionsPage oracle pageNumber =
          .error "expected page number in results") ∧
      (∀ p : Int, r.page = some p → p ≠ (pageNumber : Int) →
        fetchTransactionsPage oracle pageNumber =
          .error "expected page number not in results") ∧
      (r.page = some (pageNumber : Int) → r.totalCount = none →
        fetchTransactionsPage oracle pageNumber =
          .error "expected total count in results") ∧
      (r.page = some (pageNumber : Int) → (r.totalCount).isSome = true →
        r.transactions = .missing →
        fetchTransactionsPage oracle pageNumber =
          .error "expected transactions in results") ∧
      (r.page = some (pageNumber : Int) → (r.totalCount).isSome = true →
        r.transactions = .scalar →
        fetchTransactionsPage oracle pageNumber =
          .error "expected transactions to be an object") := by
  obtain ⟨pg, tc, tf⟩ := r
  simp only [fetchTransactionsPage, h]
  cases pg with
  | none => simp
  | some p =>
    by_cases hp : p = (pageNumber : Int)
    · subst hp
      cases tc with
      | none => simp [isObjectType]
      | some v => cases tf <;> simp [isObjectType]
    · cases tc <;> cases tf <;> simp [hp, isObjectType]

/-- A well-formed single-page transport. -/
def oracleOneGoodPage : Nat → FetchOutcome :=
  fun _ => .response ⟨some 1, some 5, .list []⟩

/-- Witness for C6 (amended): the success characterization applied to a
well-formed response for page 1. -/
theorem fetchTransactionsPage_validates_witness :
    (∃ v, fetchTransactionsPage oracleOneGoodPage 1 = .ok v) ↔
      ((some 1 : Option Int) = some ((1 : Nat) : Int) ∧
        (some (5 : Int)).isSome = true ∧ isObjectType (.list []) = true) :=
  (fetchTransactionsPage_validates oracleOneGoodPage 1 ⟨some 1, some 5, .list []⟩ rfl).1

/-- A transport whose first page carries a `null` transactions field
and declares total count 0. -/
def oracleNullPageZeroTotal : Nat → FetchOutcome :=
  fun _ => .response ⟨some 1, some 0, .null⟩

/-- C7 counterexample: a first page whose `null` transactions field
passes validation and then makes `forEach` throw.  The caught throw
fires `next(e)`, but the unconditional `next(null)` after the `catch`
fires the do-while callback a second time; the loop's test passes
(0 ≥ 0) and the caller's callback is invoked *again*, this time with a
success delivering the working set.  The caller thus receives a
failure *and then a success* — not "only the error", refuting the
claimed all-or-nothing abort. -/
theorem getTransactions_error_then_success :
    getTransactions oracleNullPageZeroTotal 5 =
        some (1, [CallerEvent.failure
                    "TypeError: results.transactions.forEach is not a function",
                  CallerEvent.success []]) ∧
      ([CallerEvent.failure "TypeError: results.transactions.forEach is not a function",
        CallerEvent.success []] ≠
        [CallerEvent.failure
          "TypeError: results.transactions.forEach is not a function"]) :=
  ⟨rfl, by decide⟩

/-- C7 (amended): a *fetch* failure (transport error or protocol
validation error) takes the `if (err)` branch, whose callback fires
once: the loop aborts immediately and the caller receives the single
failure outcome, with no working set.  A throw caught inside the
iteration body, however, does not abort cleanly: the error is
delivered, and then the stray `next(null)` after the `catch` makes the
loop consult its test again — it either terminates, additionally
delivering a success right after the failure, or keeps running and the
failure is followed by whatever the rest of the run delivers. -/
theorem accRun_error_paths (oracle : Nat → FetchOutcome) (fuel : Nat)
    (s : AccState) (e : String) :
    (accumulateStep oracle s = .fetchError e →
        accRun oracle (fuel + 1) s = some (1, [CallerEvent.failure e])) ∧
      ∀ s', accumulateStep oracle s = .caughtThrow e s' →
        (hasMorePages s' = false →
            accRun oracle (fuel + 1) s =
              some (1, [CallerEvent.failure e, CallerEvent.success s'.transactions])) ∧
        (hasMorePages s' = true →
            accRun oracle (fuel + 1) s =
              (accRun oracle fuel s').map
                (fun p => (p.1 + 1, CallerEvent.failure e :: p.2))) := by
  refine ⟨fun h => by simp [accRun, h], fun s' h => ⟨fun hb => by simp [accRun, h, hb], fun hb => ?_⟩⟩
  cases hrec : accRun oracle fuel s' <;> simp [accRun, h, hb, hrec]

/-- A transport that always fails (e.g. a network fault surfaced by the
transport collaborator). -/
def oracleTransportDown : Nat → FetchOutcome :=
  fun _ => .transportError "ECONNRESET"

/-- Witness for C7 (amended): against a failing transport the run is
the single failure, and against the `null`-transactions page the run is
the failure followed by a success. -/
theorem accRun_error_paths_witness :
    accRun oracleTransportDown 5 ⟨0, [], 1⟩ = some (1, [CallerEvent.failure "ECONNRESET"]) ∧
      accRun oracleNullPageZeroTotal 5 ⟨0, [], 1⟩ =
        some (1, [CallerEvent.failure
                    "TypeError: results.transactions.forEach is not a function",
                  CallerEvent.success []]) :=
  ⟨(accRun_error_paths oracleTransportDown 4 ⟨0, [], 1⟩ "ECONNRESET").1 rfl,
   ((accRun_error_paths oracleNullPageZeroTotal 4 ⟨0, [], 1⟩
        "TypeError: results.transactions.forEach is not a function").2
      ⟨0, [], 1⟩ rfl).1 (by decide)⟩

/-- C3: the loop transitions to DONE as soon as an iteration ends with
a working-set size at or above the most recently reported total count —
in particular when that total decreased below the already-accumulated
size — keeping, not purging, everything accumulated; and while the size
is still below the total it keeps going. -/
theorem accRun_stops_when_total_reached (oracle : Nat → FetchOutcome) (fuel : Nat)
    (s s' : AccState) (hstep : accumulateStep oracle s = .ok s') :
    (¬((s'.transactions.length : Int) < s'.expectedTotalCount) →
        accRun oracle (fuel + 1) s = some (1, [CallerEvent.success s'.transactions])) ∧
      (((s'.transactions.length : Int) < s'.expectedTotalCount) →
        accRun oracle (fuel + 1) s =
          (accRun oracle fuel s').map (fun p => (p.1 + 1, p.2))) := by
  constructor
  · intro hdone
    have hb : hasMorePages s' = false := by
      simp only [hasMorePages]
      exact decide_eq_false hdone
    simp [accRun, hstep, hb]
  · intro hmore
    have hb : hasMorePages s' = true := by
      simp only [hasMorePages]
      exact decide_eq_true hmore
    cases hrec : accRun oracle fuel s' <;> simp [accRun, hstep, hb, hrec]

/-- A transport whose page 1 declares total 5 with three records and
whose page 2 declares a *decreased* total of 2 with no records: the
loop must stop at page 2 with the three stale records kept. -/
def oracleShrinkingTotal : Nat → FetchOutcome := fun n =>
  if n = 1 then
    .response ⟨some 1, some 5,
      .list [⟨some "2013-12-13", some "Rent", some "-10.50", some "ACME"⟩,
             ⟨some "2013-12-14", some "Rent", some "-10.50", some "ACME"⟩,
             ⟨some "2013-12-15", some "Rent", some "-10.50", some "ACME"⟩]⟩
  else
    .response ⟨some (n : Int), some 2, .list []⟩

/-- Witness for C3 at the decreased-total scenario: after the page-2
step the accumulated size (3) is at or above the new total (2), so the
loop returns immediately with the three stale records kept. -/
theorem accRun_stops_when_total_reached_witness :
    accRun oracleShrinkingTotal 9
        ⟨5,
         [⟨some 20131213, some "Rent", some (-10), some "ACME"⟩,
          ⟨some 20131214, some "Rent", some (-10), some "ACME"⟩,
          ⟨some 20131215, some "Rent", some (-10), some "ACME"⟩],
         2⟩ =
      some (1, [CallerEvent.success
        [⟨some 20131213, some "Rent", some (-10), some "ACME"⟩,
         ⟨some 20131214, some "Rent", some (-10), some "ACME"⟩,
         ⟨some 20131215, some "Rent", some (-10), some "ACME"⟩]]) :=
  (accRun_stops_when_total_reached oracleShrinkingTotal 8
      ⟨5,
       [⟨some 20131213, some "Rent", some (-10), some "ACME"⟩,
        ⟨some 20131214, some "Rent", some (-10), some "ACME"⟩,
        ⟨some 20131215, some "Rent", some (-10), some "ACME"⟩],
       2⟩
      ⟨2,
       [⟨some 20131213, some "Rent", some (-10), some "ACME"⟩,
        ⟨some 20131214, some "Rent", some (-10), some "ACME"⟩,
        ⟨some 20131215, some "Rent", some (-10), some "ACME"⟩],
       3⟩
      (by rfl)).1 (by decide)

/-- C8 (amended): the loop always performs at least one fetch (the
do-while shape never consults the condition before the first
iteration), and when the very first page reports a total count of 0 it
terminates after exactly one fetch in the DONE state with working set
equal to that page's normalized records — empty exactly when the page
carries no records — as a valid result, not an error. -/
theorem getTransactions_zero_total (oracle : Nat → FetchOutcome) (fuel : Nat) :
    (∀ (f n : Nat) (evs : List CallerEvent),
        getTransactions oracle f = some (n, evs) → 1 ≤ n) ∧
      ∀ txs : List RawTransaction,
        oracle 1 = .response ⟨some 1, some 0, .list txs⟩ →
        getTransactions oracle (fuel + 1) =
          some (1, [CallerEvent.success (txs.map normalizeTransaction)]) := by
  constructor
  · intro f n evs hrun
    cases f with
    | zero => simp [getTransactions, accRun] at hrun
    | succ f' =>
      rw [getTransactions] at hrun
      rw [accRun] at hrun
      cases hstep : accumulateStep oracle ⟨0, [], 1⟩ with
      | fetchError e => rw [hstep] at hrun; simp at hrun; omega
      | ok s' =>
        rw [hstep] at hrun
        cases hb : hasMorePages s' with
        | false =>
          simp [hb] at hrun
          omega
        | true =>
          cases hrec : accRun oracle f' s' with
          | none => simp [hb, hrec] at hrun
          | some p =>
            obtain ⟨m, r⟩ := p
            simp [hb, hrec] at hrun
            omega
      | caughtThrow e s' =>
        rw [hstep] at hrun
        cases hb : hasMorePages s' with
        | false =>
          simp [hb] at hrun
          omega
        | true =>
          cases hrec : accRun oracle f' s' with
          | none => simp [hb, hrec] at hrun
          | some p =>
            obtain ⟨m, r⟩ := p
            simp [hb, hrec] at hrun
            omega
  · intro txs h1
    have hstep : accumulateStep oracle ⟨0, [], 1⟩ =
        .ok ⟨0, txs.map normalizeTransaction, 2⟩ := by
      simp [accumulateStep, fetchTransactionsPage, h1]
    have hb : hasMorePages ⟨0, txs.map normalizeTransaction, 2⟩ = false := by
      simp only [hasMorePages]
      exact decide_eq_false (not_lt.mpr (Int.natCast_nonneg _))
    simp [getTransactions, accRun, hstep, hb]

/-- A transport whose first page reports total count 0 and carries no
records. -/
def oracleEmptyDataset : Nat → FetchOutcome :=
  fun _ => .response ⟨some 1, some 0, .list []⟩

/-- Witness for C8 (amended): against an empty dataset, exactly one
fetch, DONE, empty working set — and the fetch count of that run is at
least one. -/
theorem getTransactions_zero_total_witness :
    1 ≤ 1 ∧
      getTransactions oracleEmptyDataset 5 = some (1, [CallerEvent.success []]) :=
  ⟨(getTransactions_zero_total oracleEmptyDataset 4).1 5 1 [CallerEvent.success []]
      ((getTransactions_zero_total oracleEmptyDataset 4).2 [] rfl),
   (getTransactions_zero_total oracleEmptyDataset 4).2 [] rfl⟩

/-- A transport whose first page reports total count 0 yet carries one
record. -/
def oracleZeroTotalNonempty : Nat → FetchOutcome :=
  fun _ => .response
    ⟨some 1, some 0,
     .list [⟨some "2013-12-13", some "Insurance Expense", some "-117.81",
             some "LONDON DRUGS"⟩]⟩

/-- C8 counterexample: when the very first page reports total count 0
but carries a record, the loop does terminate after one fetch in the
DONE state — but with a *non-empty* working set, contradicting the
claim's "empty working set". -/
theorem getTransactions_zero_total_nonempty_counterexample :
    getTransactions oracleZeroTotalNonempty 5 =
        some (1, [CallerEvent.success
          [⟨some 20131213, some "Insurance Expense", some (-117),
            some "LONDON DRUGS"⟩]]) ∧
      ([(⟨some 20131213, some "Insurance Expense", some (-117),
          some "LONDON DRUGS"⟩ : Transaction)] = ([] : List Transaction)) = False :=
  ⟨rfl, by simp⟩

/-!  ### Normalizer claims  -/

theorem leadingDigits_append (ds rest : List Char)
    (h : ∀ c ∈ ds, c.isDigit = true) :
    leadingDigits (ds ++ rest) = ds ++ leadingDigits rest := by
  induction ds with
  | nil => simp
  | cons c cs ih =>
    have hc : c.isDigit = true := h c (List.mem_cons_self c cs)
    have hcs : ∀ x ∈ cs, x.isDigit = true := fun x hx => h x (List.mem_cons_of_mem c hx)
    simp [leadingDigits, hc, ih hcs]

theorem leadingDigits_dot (fs : List Char) : leadingDigits ('.' :: fs) = [] := by
  simp [leadingDigits]

theorem isDigit_not_ws {c : Char} (h : c.isDigit = true) : c.isWhitespace = false := by
  by_contra hw
  rw [Bool.not_eq_false] at hw
  simp [Char.isWhitespace, or_assoc] at hw
  rcases hw with h1 | h1 | h1 | h1 <;> subst h1 <;> exact absurd h (by decide)

theorem isDigit_ne {c c2 : Char} (h : c.isDigit = true) (h2 : c2.isDigit = false) :
    c ≠ c2 := by
  intro he
  rw [he, h2] at h
  exact Bool.false_ne_true h

/-- C4: for every raw record whose Amount field is a decimal numeral
string — an optional minus sign, a non-empty run of integer digits, a
decimal point and arbitrary fractional digits — the Normalizer parses
the amount by truncating to an integer: the fractional currency units
after the decimal point are dropped entirely and the signed value of
the integer digits is returned.  (In particular `"-117.81"` normalizes
to amount `-117`; see the witness.) -/
theorem normalizeTransaction_truncates (d l c : Option String) (neg : Bool)
    (ds fs : List Char) (hne : ds ≠ [])
    (hdig : ∀ ch ∈ ds, ch.isDigit = true) :
    (normalizeTransaction
        ⟨d, l, some (String.mk ((if neg then ['-'] else []) ++ ds ++ '.' :: fs)), c⟩).amount
      = some (if neg then -(digitsVal ds : Int) else (digitsVal ds : Int)) := by
  obtain ⟨c0, cs0, rfl⟩ := List.exists_cons_of_ne_nil hne
  have hc0 : c0.isDigit = true := hdig c0 (List.mem_cons_self c0 cs0)
  have hnw : c0.isWhitespace = false := isDigit_not_ws hc0
  have hminus : c0 ≠ '-' := isDigit_ne hc0 (by decide)
  have hplus : c0 ≠ '+' := isDigit_ne hc0 (by decide)
  simp only [normalizeTransaction, parseIntJS]
  cases neg with
  | true =>
    rw [show ((if (true : Bool) then ['-'] else []) ++ (c0 :: cs0) ++ '.' :: fs)
        = '-' :: ((c0 :: cs0) ++ '.' :: fs) by simp]
    rw [List.dropWhile_cons]
    rw [if_neg (by decide)]
    simp only [parseIntCore, if_pos rfl]
    rw [leadingDigits_append (c0 :: cs0) ('.' :: fs) hdig, leadingDigits_dot,
      List.append_nil]
    simp
  | false =>
    rw [show ((if (false : Bool) then ['-'] else []) ++ (c0 :: cs0) ++ '.' :: fs)
        = c0 :: (cs0 ++ '.' :: fs) by simp]
    rw [List.dropWhile_cons]
    rw [if_neg (by simp [hnw])]
    simp only [parseIntCore, if_neg hminus, if_neg hplus]
    rw [show (c0 :: (cs0 ++ '.' :: fs)) = (c0 :: cs0) ++ '.' :: fs by simp]
    rw [leadingDigits_append (c0 :: cs0) ('.' :: fs) hdig, leadingDigits_dot,
      List.append_nil]
    simp

/-- Witness for C4: the spec's test vector — Amount `"-117.81"`
normalizes to amount `-117`. -/
theorem normalizeTransaction_truncates_witness :
    (normalizeTransaction
        ⟨some "2013-12-13", some "Insurance Expense", some "-117.81",
         some "LONDON DRUGS 78 POSTAL VANCOUVER BC"⟩).amount = some (-117) := by
  rw [show ("-117.81" : String)
      = String.mk ((if (true : Bool) then ['-'] else []) ++ ['1', '1', '7'] ++ '.' :: ['8', '1'])
      from by decide]
  rw [normalizeTransaction_truncates (some "2013-12-13") (some "Insurance Expense")
      (some "LONDON DRUGS 78 POSTAL VANCOUVER BC") true ['1', '1', '7'] ['8', '1']
      (by decide) (by decide)]
  decide

/-- C5 counterexample: a raw record whose date and amount are both
unparseable is normalized *successfully* — no error of any kind is
signalled — into a record carrying the Invalid Date (`none`) and a
`NaN` amount (`none`), exactly what the claim says can never be
returned. -/
theorem normalizeTransaction_silent_counterexample :
    normalizeTransaction ⟨some "garbage", some "Misc", some "not-a-number", some "X"⟩ =
      ⟨none, some "Misc", none, some "X"⟩ := by
  decide

/-- C5 (amended): the Normalizer never fails: it is a total function on
raw records (the source body contains no validation and no throwing
operation — `parseInt` and the `Date` constructor silently produce
`NaN` / an Invalid Date).  An unparseable date flows into the output as
the Invalid Date, an unparseable amount as `NaN`, and the other two
fields are copied verbatim. -/
theorem normalizeTransaction_total (tx : RawTransaction) :
    (parseDateJS tx.Date = none → (normalizeTransaction tx).date = none) ∧
      (parseIntJS tx.Amount = none → (normalizeTransaction tx).amount = none) ∧
      (normalizeTransaction tx).ledger = tx.Ledger ∧
      (normalizeTransaction tx).company = tx.Company :=
  ⟨fun h => h, fun h => h, rfl, rfl⟩

/-- Witness for C5 (amended) at a concrete unparseable record. -/
theorem normalizeTransaction_total_witness :
    (normalizeTransaction ⟨some "garbage", some "Misc", some "not-a-number", some "X"⟩).date
        = none ∧
      (normalizeTransaction
          ⟨some "garbage", some "Misc", some "not-a-number", some "X"⟩).amount = none :=
  ⟨(normalizeTransaction_total
      ⟨some "garbage", some "Misc", some "not-a-number", some "X"⟩).1 (by decide),
   (normalizeTransaction_total
      ⟨some "garbage", some "Misc", some "not-a-number", some "X"⟩).2.1 (by decide)⟩
